import Mathlib

/-!
Verification of the ZeroInput suggestion-ranking and feedback loop.

This file shallowly embeds the Python modules of the repository
(`agent/integration.py`, `agent/memory_store.py`, `agent/suggestion_engine.py`,
`agent/action_executor.py`, `agent/ml/ml_predictor.py`) as executable Lean
definitions and proves the specification's testable properties about them.

Modelling conventions:
* Python strings are Lean `String`s (lists of characters); the character
  classes of the `re` module (`\w`, `\s`, `.`) are modelled over the ASCII
  range actually exercised by the program.
* Python timestamps ("%Y-%m-%d %H:%M:%S" strings compared via `datetime`)
  are modelled as natural numbers counting seconds; an unparsable or missing
  timestamp is `none`.
* Python floats (confidence percentages, match ratios) are modelled as `ℚ`.
* Randomness (`random.choice`, `random.random`) is modelled by explicit
  oracle parameters, matching the spec's "randomness fixed by a seed".
* Disk state (the JSON stores) and the module-level globals are threaded as
  explicit state values; fallible code returns `Except`/`Option`.
-/

namespace ZeroInput

/-! ## Character classes and basic string helpers (Python semantics) -/

/-- Python `str.isspace`-style class used by the regex `\s` and `str.strip()`:
space, tab, newline, carriage return, vertical tab, form feed. -/
def isPySpace (c : Char) : Bool :=
  c.toNat == 32 || c.toNat == 9 || c.toNat == 10 || c.toNat == 13 ||
  c.toNat == 11 || c.toNat == 12

/-- Regex `\w`: letters, digits and underscore (ASCII model of Python's class). -/
def isWordChar (c : Char) : Bool :=
  decide (97 ≤ c.toNat ∧ c.toNat ≤ 122) || decide (65 ≤ c.toNat ∧ c.toNat ≤ 90) ||
  decide (48 ≤ c.toNat ∧ c.toNat ≤ 57) || c.toNat == 95

/-- Regex `.`: any character except a newline. -/
def isDotChar (c : Char) : Bool := c != '\n'

/-- Python `str.strip()` on a character list: drop whitespace at both ends. -/
def pyStrip (l : List Char) : List Char :=
  ((l.dropWhile isPySpace).reverse.dropWhile isPySpace).reverse

/-- Python `str.strip()` on strings. -/
def pyStripStr (s : String) : String := ⟨pyStrip s.data⟩

/-- Python `str.lower()` (ASCII model). -/
def lowerStr (s : String) : String := ⟨s.data.map Char.toLower⟩

/-- Python `needle in hay` substring test on character lists. -/
def pyIn (needle : List Char) : List Char → Bool
  | [] => needle.isPrefixOf []
  | c :: t => needle.isPrefixOf (c :: t) || pyIn needle t

/-- Python `needle in hay` on strings. -/
def pyContains (hay needle : String) : Bool := pyIn needle.data hay.data

/-- Python `str.startswith` on strings. -/
def pyStartsWith (s p : String) : Bool := p.data.isPrefixOf s.data

/-- Python `str.endswith` on character lists. -/
def pyEndsWith (l sfx : List Char) : Bool := sfx.reverse.isPrefixOf l.reverse

/-- Helper of `pySplitWs`: accumulates the current word in reverse. -/
def pySplitWsAux : List Char → List Char → List (List Char)
  | [], acc => if acc.isEmpty then [] else [acc.reverse]
  | c :: t, acc =>
    if isPySpace c then
      if acc.isEmpty then pySplitWsAux t [] else acc.reverse :: pySplitWsAux t []
    else pySplitWsAux t (c :: acc)

/-- Python `str.split()` with no separator: split on whitespace runs,
dropping empty pieces. -/
def pySplitWs (l : List Char) : List (List Char) := pySplitWsAux l []

/-- Python `random.choice(l)` modelled by an oracle index `i` (reduced mod the
list length); the source only applies it to non-empty literal lists. -/
def pychoice (l : List String) (i : Nat) : String := l.getD (i % l.length) ""

/-! ## A small backtracking regex engine

The patterns in the source use only: literals, single-character classes,
greedy and lazy `+`/`*` over character classes, `?` groups, alternation and
one capturing group.  The engine below implements exactly Python `re.search`
semantics for that fragment: leftmost starting position, alternatives tried
in written order, greedy quantifiers preferring the longest repetition and
lazy ones the shortest. -/

inductive RE where
  | eps
  | lit (s : List Char)
  | cls (p : Char → Bool)
  | seq (a b : RE)
  | alt (a b : RE)
  | opt (a : RE)
  | plusG (p : Char → Bool)
  | plusL (p : Char → Bool)
  | starG (p : Char → Bool)
  | starL (p : Char → Bool)
  | grp (a : RE)

/-- Try `f n, f (n-1), …, f 1` and return the first success. -/
def tryDescFrom (f : Nat → Option σ) : Nat → Option σ
  | 0 => none
  | n + 1 => f (n + 1) <|> tryDescFrom f n

/-- Try `f n, f (n-1), …, f 0` and return the first success. -/
def tryDesc0 (f : Nat → Option σ) : Nat → Option σ
  | 0 => f 0
  | n + 1 => f (n + 1) <|> tryDesc0 f n

/-- Try `f lo, f (lo+1), …, f (lo+cnt)` and return the first success. -/
def tryAsc (f : Nat → Option σ) (lo : Nat) : Nat → Option σ
  | 0 => f lo
  | n + 1 => f lo <|> tryAsc f (lo + 1) n

/-- Backtracking matcher in continuation-passing style.  `cap` carries the
text of capturing group 1 (if it has matched).  The continuation receives the
remaining input and the capture state. -/
def matchR : RE → List Char → Option (List Char) →
    (List Char → Option (List Char) → Option σ) → Option σ
  | .eps, l, cap, k => k l cap
  | .lit s, l, cap, k => if s.isPrefixOf l then k (l.drop s.length) cap else none
  | .cls p, l, cap, k =>
    match l with
    | [] => none
    | c :: t => if p c then k t cap else none
  | .seq a b, l, cap, k => matchR a l cap (fun l' cap' => matchR b l' cap' k)
  | .alt a b, l, cap, k => matchR a l cap k <|> matchR b l cap k
  | .opt a, l, cap, k => matchR a l cap k <|> k l cap
  | .plusG p, l, cap, k =>
    tryDescFrom (fun j => k (l.drop j) cap) (l.takeWhile p).length
  | .plusL p, l, cap, k =>
    let m := (l.takeWhile p).length
    if m = 0 then none else tryAsc (fun j => k (l.drop j) cap) 1 (m - 1)
  | .starG p, l, cap, k =>
    tryDesc0 (fun j => k (l.drop j) cap) (l.takeWhile p).length
  | .starL p, l, cap, k =>
    tryAsc (fun j => k (l.drop j) cap) 0 (l.takeWhile p).length
  | .grp a, l, cap, k =>
    matchR a l cap (fun l' _ => k l' (some (l.take (l.length - l'.length))))

/-- Python `re.search`: try every start position from the left; returns
`none` when there is no match, and `some cap` (the state of group 1) when
there is one. -/
def reSearch (r : RE) (l : List Char) : Option (Option (List Char)) :=
  match matchR r l none (fun _ cap => some cap) with
  | some cap => some cap
  | none =>
    match l with
    | [] => none
    | _ :: t => reSearch r t

/-- Alternation of a list of literal words, tried in the written order. -/
def altLits : List String → RE
  | [] => .eps
  | [s] => .lit s.data
  | s :: rest => .alt (.lit s.data) (altLits rest)

/-! ## Window-title parsing

`extract_app_name` appears verbatim in `agent/integration.py`,
`agent/ml/ml_predictor.py` and (as `extract_application_from_window`) in
`agent/suggestion_engine.py`; all three bodies are identical. -/

/-- Regex `(.+?) - .+` : "Document - Application", keep the left side. -/
def titlePat1 : RE :=
  .seq (.grp (.plusL isDotChar)) (.seq (.lit " - ".data) (.plusG isDotChar))

/-- Regex `.+ - (.+)` : "Application - Document", keep the right side. -/
def titlePat2 : RE :=
  .seq (.plusG isDotChar) (.seq (.lit " - ".data) (.grp (.plusG isDotChar)))

/-- Regex `(.+?)\s*[\[\(].*?[\]\)]` : "Application [status]" / "(status)". -/
def titlePat3 : RE :=
  .seq (.grp (.plusL isDotChar))
    (.seq (.starG isPySpace)
      (.seq (.cls fun c => c == '[' || c == '(')
        (.seq (.starL isDotChar) (.cls fun c => c == ']' || c == ')'))))

/-- Regex `(.+?):\s` : "Application: Document". -/
def titlePat4 : RE :=
  .seq (.grp (.plusL isDotChar)) (.seq (.lit ":".data) (.cls isPySpace))

/-- Embeds `extract_app_name` (= `extract_application_from_window`): the four
title patterns are tried in order, first match wins; the matched group is
stripped; otherwise fall back to the first whitespace-delimited word, or the
whole title when it has none. -/
def extract_app_name (window_title : String) : String :=
  let l := window_title.data
  match reSearch titlePat1 l with
  | some cap => ⟨pyStrip (cap.getD [])⟩
  | none =>
  match reSearch titlePat2 l with
  | some cap => ⟨pyStrip (cap.getD [])⟩
  | none =>
  match reSearch titlePat3 l with
  | some cap => ⟨pyStrip (cap.getD [])⟩
  | none =>
  match reSearch titlePat4 l with
  | some cap => ⟨pyStrip (cap.getD [])⟩
  | none =>
  match pySplitWs l with
  | w :: _ => ⟨w⟩
  | [] => window_title

/-- Alias used by `agent/suggestion_engine.py`; the body is identical. -/
def extract_application_from_window (window_title : String) : String :=
  extract_app_name window_title

/-! ## The name normalizer (`normalize_app_name`, `agent/integration.py`) -/

/-- The fixed extension list stripped by the normalizer. -/
def normExtensions : List String :=
  [".py", ".json", ".txt", ".html", ".js", ".exe", ".md"]

/-- The fixed window-chrome suffix list stripped by the normalizer. -/
def normIndicators : List String :=
  [" - visual studio code", " - google chrome", " - firefox",
   " - microsoft edge", " - notepad", " - word"]

/-- One pass of `for sfx in suffixes: if name.endswith(sfx): name = name[:-len(sfx)]`. -/
def stripSuffixes : List String → List Char → List Char
  | [], name => name
  | sfx :: rest, name =>
    stripSuffixes rest
      (if pyEndsWith name sfx.data then name.take (name.length - sfx.length) else name)

/-- Characters surviving `re.sub(r'[^\w\s]', '', name)`. -/
def keepChar (c : Char) : Bool := isWordChar c || isPySpace c

/-- Helper of `squeezeWs`; the flag records whether the previous character
was whitespace (i.e. we are inside a run that has already emitted its single
space). -/
def squeezeWsAux : Bool → List Char → List Char
  | _, [] => []
  | inRun, c :: t =>
    if isPySpace c then
      if inRun then squeezeWsAux true t else ' ' :: squeezeWsAux true t
    else c :: squeezeWsAux false t

/-- Embeds `re.sub(r'\s+', ' ', name)`: squeeze every whitespace run to one
space. -/
def squeezeWs (l : List Char) : List Char := squeezeWsAux false l

/-- Core of the normalizer on character lists: lowercase, strip extensions,
strip window-chrome suffixes, remove punctuation, collapse whitespace. -/
def normCore (l : List Char) : List Char :=
  pyStrip (squeezeWs
    ((stripSuffixes normIndicators
      (stripSuffixes normExtensions (l.map Char.toLower))).filter keepChar))

/-- Embeds `normalize_app_name`; the empty string models every falsy input
(`None` and `""` are both returned as `""`). -/
def normalize_app_name (s : String) : String :=
  if s = "" then "" else ⟨normCore s.data⟩

/-! ### Invariants of normalized names, towards idempotence -/

/-- Characters that can appear in a normalized name: a word character outside
the uppercase range, or a plain space. -/
def goodChar (c : Char) : Bool :=
  (isWordChar c && decide ¬(65 ≤ c.toNat ∧ c.toNat ≤ 90)) || c == ' '

/-- No two adjacent characters are both whitespace. -/
def NoWsPair (l : List Char) : Prop :=
  l.Chain' fun a b => ¬(isPySpace a = true ∧ isPySpace b = true)

/-- The first character, if any, is not whitespace. -/
def headNotSpace (l : List Char) : Bool :=
  match l with
  | [] => true
  | c :: _ => !isPySpace c

/-! ## The action extractor (`agent/action_executor.py`) -/

/-- ASCII apostrophe, written via its code point. -/
def sq : Char := Char.ofNat 39

/-- Lowercase letters and digits, the class `[a-z0-9]`. -/
def lowerAlnum (c : Char) : Bool :=
  decide (97 ≤ c.toNat ∧ c.toNat ≤ 122) || decide (48 ≤ c.toNat ∧ c.toNat ≤ 57)

/-- The class `[\w\s\.]`. -/
def wsDotClass (c : Char) : Bool := isWordChar c || isPySpace c || c == '.'

/-- The class `[\w\.-]` of the website pattern. -/
def websiteClass (c : Char) : Bool := isWordChar c || c == '.' || c == '-'

/-- Key-name alternation of the keyboard-shortcut regex, in written order. -/
def keyRE : RE :=
  altLits ["ctrl", "alt", "shift", "win", "tab", "esc", "spacebar", "space bar",
    "enter", "delete", "backspace", "home", "end", "page up", "page down"]

/-- One optional `\s*\+\s*(?:shift|alt|ctrl|tab|[a-z0-9])` combination segment. -/
def plusSegRE : RE :=
  .seq (.starG isPySpace) (.seq (.lit "+".data) (.seq (.starG isPySpace)
    (.alt (.lit "shift".data) (.alt (.lit "alt".data) (.alt (.lit "ctrl".data)
      (.alt (.lit "tab".data) (.cls lowerAlnum)))))))

/-- The keyboard-shortcut regex:
`(?:try|use|press)\s+(?:the\s+)?(KEY(?:\s*\+\s*SEG)?(?:\s*\+\s*SEG)?)`. -/
def shortcutRE : RE :=
  .seq (altLits ["try", "use", "press"])
    (.seq (.plusG isPySpace)
      (.seq (.opt (.seq (.lit "the".data) (.plusG isPySpace)))
        (.grp (.seq keyRE (.seq (.opt plusSegRE) (.opt plusSegRE))))))

/-- Regex `(\w+\.py|\w+\.exe|\w+\.json)` for app files with extensions. -/
def appFileRE : RE :=
  .grp (.alt (.seq (.plusG isWordChar) (.lit ".py".data))
    (.alt (.seq (.plusG isWordChar) (.lit ".exe".data))
      (.seq (.plusG isWordChar) (.lit ".json".data))))

/-- Regex `open\s+([\w\s\.]+)`. -/
def openRE : RE :=
  .seq (.lit "open".data) (.seq (.plusG isPySpace) (.grp (.plusG wsDotClass)))

/-- Regex `switch to\s+([\w\s\.]+)`. -/
def switchToRE : RE :=
  .seq (.lit "switch to".data) (.seq (.plusG isPySpace) (.grp (.plusG wsDotClass)))

/-- Regex `use\s+([\w\s\.]+)`. -/
def useRE : RE :=
  .seq (.lit "use".data) (.seq (.plusG isPySpace) (.grp (.plusG wsDotClass)))

/-- Regex `([\w\s\.]+)(?:\s+next|after)` of the (unreachable) ML special
case. -/
def deadAppNameRE : RE :=
  .seq (.grp (.plusG wsDotClass))
    (.alt (.seq (.plusG isPySpace) (.lit "next".data)) (.lit "after".data))

/-- Regex `open it now\?`: a plain literal, with no capturing group. -/
def openItNowRE : RE := .lit "open it now?".data

/-- Regex `ready to switch\?`: a plain literal, with no capturing group. -/
def readySwitchRE : RE := .lit "ready to switch?".data

/-- Regex `sometimes use\s+([\w\s\.]+)\s+in this context`. -/
def mlContextRE : RE :=
  .seq (.lit "sometimes use".data)
    (.seq (.plusG isPySpace)
      (.seq (.grp (.plusG wsDotClass))
        (.seq (.plusG isPySpace) (.lit "in this context".data))))

/-- Regex `([\w\.-]+\.(com|org|net|io|dev))`; only group 1 is consumed. -/
def websiteRE : RE :=
  .grp (.seq (.plusG websiteClass)
    (.seq (.lit ".".data) (altLits ["com", "org", "net", "io", "dev"])))

/-- The five entries of `app_patterns`, paired with the pattern source text
that the loop body compares (brokenly) against quoted literals. -/
def appPatterns : List (String × RE) :=
  [("open\\s+([\\w\\s\\.]+)", openRE),
   ("switch to\\s+([\\w\\s\\.]+)", switchToRE),
   ("use\\s+([\\w\\s\\.]+)", useRE),
   ("open it now\\?", openItNowRE),
   ("ready to switch\\?", readySwitchRE)]

/-- The literal list `['r\'open it now\?\'', 'r\'ready to switch\?\'']` the
loop compares patterns against: each element carries a stray `r'…'` wrapper,
so the comparison never succeeds (see C10). -/
def brokenSpecialList : List String :=
  [⟨['r', sq] ++ "open it now\\?".data ++ [sq]⟩,
   ⟨['r', sq] ++ "ready to switch\\?".data ++ [sq]⟩]

/-- The non-actionable indicator vocabulary. -/
def nonActionableIndicators : List String :=
  ["shortcut", "keyboard", "tip", "consider", "try",
   "ctrl+", "alt+", "shift+", "tutorial", "faster", "speed"]

/-- The pronoun blacklist for `open/switch to/use` targets. -/
def pronounList : List String :=
  ["it", "this", "that", "them", "they", "these", "those"]

/-- Python `str.rstrip('?.,!')`. -/
def rstripPunct (l : List Char) : List Char :=
  (l.reverse.dropWhile fun c => c == '?' || c == '.' || c == ',' || c == '!').reverse

/-- The `action_info` dictionary (the constantly-empty `params` key is
omitted). -/
structure ActionInfo where
  type : Option String
  target : Option String
deriving DecidableEq

/-- The `for pattern in app_patterns` loop.  A match of one of the last two
patterns reaches `match.group(1)` on a pattern without groups, which raises
`IndexError` in Python; this is modelled by `Except.error`. -/
def appPatternLoop (s low : String) : List (String × RE) → Except String (Option ActionInfo)
  | [] => .ok none
  | (pstr, pre) :: rest =>
    match reSearch pre low.data with
    | none => appPatternLoop s low rest
    | some cap =>
      if pstr ∈ brokenSpecialList then
        match reSearch deadAppNameRE s.data with
        | some cap2 => .ok (some ⟨some "open_app", some ⟨pyStrip (cap2.getD [])⟩⟩)
        | none => appPatternLoop s low rest
      else
        match cap with
        | none => .error "no such group"
        | some g =>
          let target : String := ⟨rstripPunct (pyStrip g)⟩
          if target ∈ pronounList then appPatternLoop s low rest
          else .ok (some ⟨some "open_app", some target⟩)

/-- Embeds `extract_action_from_suggestion`.  `none` models a `None`
argument; `Except.error` models an uncaught Python exception. -/
def extract_action_from_suggestion (suggestion : Option String) :
    Except String ActionInfo :=
  match suggestion with
  | none => .ok ⟨none, none⟩
  | some s =>
    if s = "" then .ok ⟨none, none⟩ else
    let low := lowerStr s
    match reSearch shortcutRE low.data with
    | some cap => .ok ⟨some "keyboard_shortcut", some ⟨pyStrip (cap.getD [])⟩⟩
    | none =>
    match reSearch appFileRE s.data with
    | some cap => .ok ⟨some "open_app", some ⟨cap.getD []⟩⟩
    | none =>
    match appPatternLoop s low appPatterns with
    | .error e => .error e
    | .ok (some a) => .ok a
    | .ok none =>
    if nonActionableIndicators.any (fun ind => pyContains low ind) then
      .ok ⟨some "show_tip", some s⟩
    else
    match reSearch mlContextRE s.data with
    | some cap => .ok ⟨some "open_app", some ⟨pyStrip (cap.getD [])⟩⟩
    | none =>
    match reSearch websiteRE low.data with
    | some cap => .ok ⟨some "open_website", some ⟨cap.getD []⟩⟩
    | none => .ok ⟨none, none⟩

deriving instance DecidableEq for Except

/-! ## The behavior memory (`agent/memory_store.py`) -/

/-- One entry of the memory list.  Python entries are JSON dictionaries;
`none` models a missing key (a non-dict entry behaves identically in every
consumer, which guards each access with `isinstance`/membership checks). -/
structure MemEntry where
  timestamp : Option Nat := none
  window : Option String := none
  recent_files : Option (List String) := none
  top_processes : Option (List String) := none
deriving DecidableEq

/-- Embeds `log_to_memory`: validates the snapshot (window must be a
non-empty string, both lists must be non-empty lists — `none` models a
missing/non-string/non-list argument) and appends it; returns whether an
entry was appended together with the new memory.  `now` is the timestamp
written into the entry. -/
def log_to_memory (window : Option String) (recent_files : Option (List String))
    (processes : Option (List String)) (now : Nat) (memory : List MemEntry) :
    Bool × List MemEntry :=
  match window with
  | none => (false, memory)
  | some w =>
    if w = "" then (false, memory) else
    match recent_files with
    | none => (false, memory)
    | some [] => (false, memory)
    | some fs =>
      match processes with
      | none => (false, memory)
      | some [] => (false, memory)
      | some ps => (true, memory ++ [⟨some now, some w, some fs, some ps⟩])

/-! ## The feedback recorder (`agent/integration.py`) -/

/-- Count of positions with equal characters, Python
`sum(c1 == c2 for c1, c2 in zip(a, b))`. -/
def countEqPos : List Char → List Char → Nat
  | a :: as, b :: bs => (if a = b then 1 else 0) + countEqPos as bs
  | _, _ => 0

/-- The followed/ignored matcher of `record_suggestion_feedback`
(lines 249-265): equality on normalized names, then substring containment,
then a positionwise 80%-agreement heuristic when both names have more than
3 characters.  The float comparison `common_chars / max_len > 0.8` is
modelled by the exact equivalent `10 * common_chars > 8 * max_len`. -/
def fuzzyFollowed (normalized_suggested normalized_current : String) : Bool :=
  let followed := normalized_current == normalized_suggested
  if !followed && !(normalized_suggested == "") && !(normalized_current == "") then
    if pyContains normalized_current normalized_suggested ||
        pyContains normalized_suggested normalized_current then true
    else if normalized_suggested.length > 3 && normalized_current.length > 3 then
      let common := countEqPos normalized_suggested.data normalized_current.data
      let maxLen := max normalized_suggested.length normalized_current.length
      decide (10 * common > 8 * maxLen)
    else false
  else followed

/-- The module-global `_last_suggestion` dictionary; each field is `None`
when cleared (the timestamp string is modelled as seconds). -/
structure PendingSuggestion where
  text : Option String
  app_name : Option String
  timestamp : Option Nat
deriving DecidableEq

/-- The cleared slot `{"text": None, "app_name": None, "timestamp": None}`. -/
def clearedSuggestion : PendingSuggestion := ⟨none, none, none⟩

/-- The `stats` object of the feedback store. -/
structure FeedbackStats where
  total : Nat
  followed : Nat
  ignored : Nat
deriving DecidableEq

/-- One `suggestion_record` appended by the feedback recorder. -/
structure SuggestionRecord where
  timestamp : Nat
  suggestion_text : String
  suggested_app : Option String
  followed : Bool
  time_to_respond : Int
  current_app : String
deriving DecidableEq

/-- The persisted feedback store `{suggestions, stats}`. -/
structure FeedbackData where
  suggestions : List SuggestionRecord
  stats : FeedbackStats
deriving DecidableEq

/-- The initial structure created by `load_feedback_data` when no feedback
file exists. -/
def initial_feedback_data : FeedbackData := ⟨[], ⟨0, 0, 0⟩⟩

/-- State touched by the feedback recorder: the pending-suggestion slot and
the on-disk store. -/
structure FeedbackState where
  last_suggestion : PendingSuggestion
  data : FeedbackData
deriving DecidableEq

/-- Embeds `record_suggestion_feedback(current_window)` at time `now`
(seconds): no-op when the slot has a falsy text or timestamp; fuzzy-compares
the normalized current app with the normalized suggested app; discards and
clears a suggestion older than 300 seconds; otherwise appends a record,
bumps the counters and clears the slot. -/
def record_suggestion_feedback (current_window : String) (now : Nat)
    (st : FeedbackState) : FeedbackState :=
  match st.last_suggestion.text, st.last_suggestion.timestamp with
  | some t, some ts =>
    if t = "" then st else
    let current_app := extract_app_name current_window
    let normalized_current := normalize_app_name current_app
    let normalized_suggested := normalize_app_name (st.last_suggestion.app_name.getD "")
    let followed := fuzzyFollowed normalized_suggested normalized_current
    let time_diff : Int := (now : Int) - (ts : Int)
    if time_diff > 300 then
      { st with last_suggestion := clearedSuggestion }
    else
      let rec0 : SuggestionRecord :=
        ⟨ts, t, st.last_suggestion.app_name, followed, time_diff, current_app⟩
      { last_suggestion := clearedSuggestion,
        data :=
          { suggestions := st.data.suggestions ++ [rec0],
            stats :=
              { total := st.data.stats.total + 1,
                followed := st.data.stats.followed + (if followed then 1 else 0),
                ignored := st.data.stats.ignored + (if followed then 0 else 1) } } }
  | _, _ => st

/-! ## The suggestion engine (`agent/suggestion_engine.py`) -/

/-- Insertion-ordered counter: `Counter()[k] += 1`. -/
def counterAdd : List (String × Nat) → String → List (String × Nat)
  | [], k => [(k, 1)]
  | (k', n) :: t, k => if k' = k then (k', n + 1) :: t else (k', n) :: counterAdd t k

/-- Stable descending insertion used by `mostCommon`: `x` goes after every
earlier element whose count is at least as large. -/
def insDesc (x : String × Nat) : List (String × Nat) → List (String × Nat)
  | [] => [x]
  | y :: t => if y.2 < x.2 then x :: y :: t else y :: insDesc x t

/-- `Counter.most_common(n)`: sort by count descending, ties kept in
insertion order, then take `n`. -/
def mostCommon (l : List (String × Nat)) (n : Nat) : List (String × Nat) :=
  (l.foldl (fun acc x => insDesc x acc) []).take n

/-- Lookup in an insertion-ordered association list (`dict` access). -/
def assocFind {α : Type} : List (String × α) → String → Option α
  | [], _ => none
  | (k', v) :: t, k => if k' = k then some v else assocFind t k

/-- Hour of a timestamp in seconds (Python `datetime.hour`). -/
def hourOfTimestamp (ts : Nat) : Nat := ts / 3600 % 24

/-- The time-of-day bucketing of `analyze_user_patterns`. -/
def timeCategory (hour : Nat) : String :=
  if 5 ≤ hour ∧ hour < 12 then "morning"
  else if 12 ≤ hour ∧ hour < 17 then "afternoon"
  else if 17 ≤ hour ∧ hour < 22 then "evening"
  else "night"

/-- `os.path.basename`: the part after the last path separator (Windows
`ntpath` also splits on backslashes). -/
def basename (s : String) : String :=
  ⟨s.data.foldl (fun acc c => if c = '/' || c = '\\' then [] else acc ++ [c]) []⟩

/-- Python `round` to the nearest integer, halves to even, on exact
rationals (modelling `round(v, 1)` on floats). -/
def roundHalfEven (q : ℚ) : ℤ :=
  if q - ⌊q⌋ < 1 / 2 then ⌊q⌋
  else if q - ⌊q⌋ > 1 / 2 then ⌊q⌋ + 1
  else if ⌊q⌋ % 2 = 0 then ⌊q⌋ else ⌊q⌋ + 1

/-- `round(v, 1)`. -/
def round1 (q : ℚ) : ℚ := (roundHalfEven (q * 10) : ℚ) / 10

/-- Formatting `f"{v:.1f}"` (modelled by half-even rounding of the exact
rational to one decimal place). -/
def fmtQ1 (q : ℚ) : String :=
  let n := roundHalfEven (q * 10)
  let m := n.natAbs
  (if n < 0 then "-" else "") ++ toString (m / 10) ++ "." ++ toString (m % 10)

/-- The derived pattern summary.  Python returns a plain dict; a key that the
source leaves absent is modelled by its falsy default (`[]`, or `none` for
`avg_app_duration`), which every consumer treats identically (access is
always through `dict.get`). -/
structure Patterns where
  frequent_apps : List (String × Nat) := []
  previous_apps : List (String × Nat) := []
  next_apps : List (String × Nat) := []
  time_of_day : List (String × Nat) := []
  frequent_files_with_app : List (String × Nat) := []
  frequent_processes_with_app : List (String × Nat) := []
  avg_app_duration : Option (List (String × ℚ)) := none
deriving DecidableEq

/-- One step of the dwell-time loop of `analyze_user_patterns`: state is
(current app, start time, per-app duration lists). -/
def durStep (st : Option String × Option Nat × List (String × List ℚ))
    (e : MemEntry) : Option String × Option Nat × List (String × List ℚ) :=
  match e.window, e.timestamp with
  | some w, some ts =>
    let app := extract_application_from_window w
    if st.1 = some app then st
    else
      let durs :=
        match st.1, st.2.1 with
        | some cur, some start =>
          if cur = "" then st.2.2
          else
            match assocFind st.2.2 cur with
            | some vs =>
              st.2.2.map fun kv =>
                if kv.1 = cur then (kv.1, vs ++ [(((ts : ℤ) - (start : ℤ) : ℤ) : ℚ) / 60])
                else kv
            | none => st.2.2 ++ [(cur, [(((ts : ℤ) - (start : ℤ) : ℤ) : ℚ) / 60])]
        | _, _ => st.2.2
      (some app, some ts, durs)
  | _, _ => st

/-- Sum of a list of rationals. -/
def sumQ (l : List ℚ) : ℚ := l.foldl (· + ·) 0

/-- Embeds `analyze_user_patterns(memory_data, current_window, current_files,
current_processes)`.  The two "current" list arguments are accepted and
ignored exactly as in the source. -/
def analyze_user_patterns (memory_data : List MemEntry) (current_window : String)
    (current_files : List String) (current_processes : List String) : Patterns :=
  if memory_data.isEmpty then {} else
  let _ := current_files
  let _ := current_processes
  let current_app := extract_application_from_window current_window
  let app_counter := memory_data.foldl
    (fun acc e =>
      match e.window with
      | some w => counterAdd acc (extract_application_from_window w)
      | none => acc) []
  let pairs := memory_data.zip (memory_data.drop 1)
  let step := fun (acc : List (String × Nat) × List (String × Nat))
      (pq : MemEntry × MemEntry) =>
    match pq.1.window, pq.2.window with
    | some wprev, some wcurr =>
      let curr := extract_application_from_window wcurr
      let prev := extract_application_from_window wprev
      let pa := if curr = current_app then counterAdd acc.2 prev else acc.2
      let na := if prev = current_app then counterAdd acc.1 curr else acc.1
      (na, pa)
    | _, _ => acc
  let np := pairs.foldl step ([], [])
  let tod := memory_data.foldl
    (fun acc e =>
      match e.timestamp with
      | some ts => counterAdd acc (timeCategory (hourOfTimestamp ts))
      | none => acc) []
  let files_with_app := memory_data.foldl
    (fun acc e =>
      match e.window, e.recent_files with
      | some w, some fs =>
        if extract_application_from_window w = current_app then
          fs.foldl (fun a f => if f = "" then a else counterAdd a (basename f)) acc
        else acc
      | _, _ => acc) []
  let procs_with_app := memory_data.foldl
    (fun acc e =>
      match e.window, e.top_processes with
      | some w, some ps =>
        if extract_application_from_window w = current_app then
          ps.foldl (fun a p => if p = "" then a else counterAdd a p) acc
        else acc
      | _, _ => acc) []
  let avg :=
    if 2 ≤ memory_data.length then
      let fin := memory_data.foldl durStep (none, none, [])
      some (((fin.2.2).filter fun kv => !kv.2.isEmpty).map
        fun kv => (kv.1, round1 (sumQ kv.2 / (kv.2.length : ℚ))))
    else none
  { frequent_apps := mostCommon app_counter 5,
    previous_apps := mostCommon np.2 3,
    next_apps := mostCommon np.1 3,
    time_of_day := tod,
    frequent_files_with_app := mostCommon files_with_app 3,
    frequent_processes_with_app := mostCommon procs_with_app 5,
    avg_app_duration := avg }

/-- Single-quote character as a one-character string (used to spell source
strings containing apostrophes). -/
def sqS : String := ⟨[sq]⟩

/-- The byte sequence `0xC3 0xA2, 0xE2 0x80 0xA0, 0xE2 0x80 0x99` in the
source file (a double-encoded arrow), as the three characters Python reads. -/
def moArrow : String := ⟨[Char.ofNat 226, Char.ofNat 8224, Char.ofNat 8217]⟩

/-- Embeds the `APP_SUGGESTIONS` dictionary.  The source dict literal defines
the key "email" twice; per Python semantics the later value wins, so only the
second email list is present here. -/
def APP_SUGGESTIONS : String → Option (List String) := fun category =>
  if category = "default" then some
    ["Try exploring the interface for hidden productivity tools.",
     "Consider organizing your workspace with Win+Arrow keys for better multitasking.",
     "Take a quick screenshot with Win+Shift+S to capture important information.",
     "Try using the clipboard history with Win+V to access previously copied items."]
  else if category = "email" then some
    ["Manage your inbox with filters and quick replies.",
     "Try using Ctrl+R to reply to the current email quickly.",
     "Consider scheduling emails to send later for better communication timing.",
     "Try using email templates for frequently sent message types."]
  else if category = "canva" then some
    ["Try adjusting your canvas tools for creative efficiency.",
     "Use the keyboard shortcut Ctrl+G to group elements for easier manipulation.",
     "Try Canva" ++ sqS ++ "s magic resize to repurpose your design for different platforms.",
     "Use the alignment tools (select objects and look for the alignment options) to create polished designs.",
     "Consider using Canva" ++ sqS ++ "s Brand Kit to maintain consistency across your designs."]
  else if category = "code" then some
    ["Use keyboard shortcuts for fast code navigation.",
     "Try Ctrl+Shift+P to open Command Palette for quick access to VS Code commands.",
     "Consider using Live Share to collaborate with team members in real-time.",
     "Try Ctrl+F to search within the current file or Ctrl+Shift+F to search across all files.",
     "Use Alt+Z to toggle word wrap for better code readability."]
  else if category = "document" then some
    ["Try utilizing track changes for better revision control.",
     "Use Ctrl+Shift+V to paste without formatting for cleaner documents.",
     "Try using styles (Ctrl+Alt+1,2,3) to maintain consistent document structure.",
     "Consider using the Navigation pane (View > Navigation) to move quickly through document sections."]
  else if category = "presentation" then some
    ["Set up slide transitions to enhance your presentation.",
     "Try using Alt+N to create a new slide quickly.",
     "Consider using Presenter View to see your notes while presenting.",
     "Try F5 to start the presentation from the beginning or Shift+F5 from the current slide."]
  else if category = "browser" then some
    ["Organize your tabs with groupings or pinned tabs.",
     "Try Ctrl+Shift+T to reopen recently closed tabs.",
     "Consider using bookmark folders to organize your research topics.",
     "Try Ctrl+Tab to quickly cycle through your open tabs.",
     "Use Ctrl+D to bookmark the current page for easy reference later."]
  else if category = "video" then some
    ["Use editing shortcuts to trim your clips faster.",
     "Try J, K, and L keys for navigating video playback (back, pause, forward).",
     "Consider using YouTube" ++ sqS ++
       "s playback speed controls (shift+, and shift+.) for faster viewing.",
     "Try using the spacebar to quickly pause and resume playback."]
  else none

/-- Embeds `generate_workflow_suggestion`: uses the top `next_apps`
transition, suppressed below 3 occurrences. -/
def generate_workflow_suggestion (patterns : Patterns) (current_app : String)
    (rand : Nat) : Option String :=
  match patterns.next_apps with
  | [] => none
  | (next_app, frequency) :: _ =>
    if frequency < 3 then none
    else some (pychoice
      ["You often open " ++ next_app ++ " after using " ++ current_app ++
         ". Would you like to open it now?",
       "Based on your patterns, you typically switch to " ++ next_app ++
         " next. Ready to make the switch?",
       "I notice you frequently use " ++ next_app ++ " after " ++ current_app ++
         ". Consider opening it to continue your workflow.",
       "Your usual workflow: " ++ current_app ++ " " ++ moArrow ++ " " ++ next_app ++
         ". Want to continue this pattern?"] rand)

/-- The process-scanning fallback loop of `get_context_category`: the first
process matching any branch decides. -/
def procCategoryLoop : List String → String
  | [] => "default"
  | p :: rest =>
    let pl := lowerStr p
    if pyContains pl "canva" then "canva"
    else if pyContains pl "code" || pyContains pl "visual studio" then "code"
    else if pyContains pl "word" then "document"
    else if pyContains pl "powerpoint" then "presentation"
    else if pyContains pl "outlook" || pyContains pl "thunderbird" then "email"
    else if pyContains pl "chrome" || pyContains pl "firefox" || pyContains pl "edge" then
      "browser"
    else if pyContains pl "premiere" || pyContains pl "vegas" || pyContains pl "video" then
      "video"
    else procCategoryLoop rest

/-- Embeds `get_context_category(window_title, processes)`. -/
def get_context_category (window_title : String) (processes : List String) : String :=
  let w := lowerStr window_title
  if pyContains w "gmail" || pyContains w "mail.google" then "email"
  else if pyContains w "docs.google" then "document"
  else if pyContains w "slides.google" then "presentation"
  else if pyContains w "sheets.google" then "spreadsheet"
  else if pyContains w "youtube" then "video"
  else if pyContains w "canva" then "canva"
  else if pyContains w "visual studio code" || pyContains w "vs code" ||
      (processes.map lowerStr).contains "code.exe" then "code"
  else if pyContains w "word" || pyContains w "document" || pyContains w ".doc" then
    "document"
  else if pyContains w "powerpoint" || pyContains w "presentation" ||
      pyContains w ".ppt" then "presentation"
  else if pyContains w "outlook" || pyContains w "mail" || pyContains w "gmail" then
    "email"
  else if pyContains w "chrome" || pyContains w "edge" || pyContains w "firefox" ||
      pyContains w "browser" then "browser"
  else if pyContains w "premiere" || pyContains w "video" || pyContains w "youtube" then
    "video"
  else procCategoryLoop processes

/-- Embeds `generate_personalized_suggestion`.  `memory_data` is the loaded
memory (the `None` default argument makes the source load it from disk),
`now_hour` the current hour, `rand` the choice oracle. -/
def generate_personalized_suggestion (current_window : String)
    (recent_files : List String) (top_processes : List String)
    (memory_data : List MemEntry) (now_hour : Nat) (rand : Nat) : String :=
  let patterns := analyze_user_patterns memory_data current_window recent_files top_processes
  let current_app := extract_application_from_window current_window
  match generate_workflow_suggestion patterns current_app rand with
  | some s => s
  | none =>
    let insights : List String :=
      (match patterns.next_apps with
       | (next_app, _) :: _ =>
         ["Consider preparing your " ++ next_app ++
            " workflow, as you often switch to it after " ++ current_app ++ "."]
       | [] => []) ++
      (let tc := timeCategory now_hour
       if tc = "evening" ∨ tc = "night" then
         ["Consider turning on night mode to reduce eye strain while working late."]
       else []) ++
      (match assocFind (patterns.avg_app_duration.getD []) current_app with
       | some avg =>
         if avg > 45 then
           ["You typically spend " ++ fmtQ1 avg ++ " minutes in " ++ current_app ++
              ". Consider setting a timer for breaks."]
         else []
       | none => []) ++
      (match patterns.frequent_files_with_app with
       | (common_file, _) :: _ =>
         ["You often work with " ++ common_file ++ " in " ++ current_app ++
            ". Consider creating a shortcut for quick access."]
       | [] => [])
    if insights ≠ [] then pychoice insights rand
    else
      let category := get_context_category current_window top_processes
      match APP_SUGGESTIONS category with
      | some tips => pychoice tips rand
      | none =>
        "Try exploring the " ++ current_app ++
          " interface for features that could speed up your current workflow."

/-- Embeds `get_smart_suggestion(window, files, processes)`. -/
def get_smart_suggestion (window : String) (files : List String)
    (processes : List String) (memory : List MemEntry) (now_hour : Nat)
    (rand : Nat) : String :=
  let personalized :=
    generate_personalized_suggestion window files processes memory now_hour rand
  if personalized ≠ "" then personalized
  else
    let category := get_context_category window processes
    pychoice ((APP_SUGGESTIONS category).getD ((APP_SUGGESTIONS "default").getD [])) rand

/-- Outcome of the external Ollama interaction inside `ask_phi`:
not running, timed out, or a raw reply string. -/
inductive OllamaOutcome where
  | notRunning
  | timeout
  | reply (s : String)
deriving DecidableEq

/-- Embeds `ask_phi(prompt)`.  The success path filters and cleans the raw
reply; every failure (not running, timeout, invalid or non-actionable reply)
lands in the `except` branch, which recomputes a fallback from the current
context — with the file and process lists truncated to 3 — and never
re-raises.  The context getters are modelled by the snapshot of the running
cycle. -/
def ask_phi (oc : OllamaOutcome) (window : String) (files : List String)
    (processes : List String) (memory : List MemEntry) (now_hour : Nat)
    (rand : Nat) : String :=
  let success : Option String :=
    match oc with
    | .notRunning => none
    | .timeout => none
    | .reply r =>
      if r ≠ "" ∧ ¬pyStartsWith r "Error:" = true ∧ 10 < r.length then
        let resp := pyStripStr (r.replace "Your specific, actionable suggestion:" "")
        if pyStartsWith (lowerStr resp) "you are" || pyStartsWith (lowerStr resp) "i am" ||
            pyStartsWith (lowerStr resp) "the user is" ||
            pyStartsWith (lowerStr resp) "this is" then none
        else some resp
      else none
  match success with
  | some resp => resp
  | none =>
    let files3 := files.take 3
    let procs3 := processes.take 3
    let category := get_context_category window procs3
    if category ≠ "default" ∧ (APP_SUGGESTIONS category).isSome then
      pychoice ((APP_SUGGESTIONS category).getD []) rand
    else
      get_smart_suggestion window files3 procs3 memory now_hour rand

/-- Embeds the suggestion-generation portion of `run_complete_cycle`
(`agent/integration.py` lines 138-159): the ML tier (an exception or a falsy
result falls through), then the LLM tier via `ask_phi` (which never raises),
then the heuristic ranker on the full snapshot. -/
def runCycleSuggestion (mlOutcome : Except Unit (Option String))
    (oc : OllamaOutcome) (window : String) (files : List String)
    (processes : List String) (memory : List MemEntry) (now_hour : Nat)
    (rand : Nat) : Option String :=
  let s1 : Option String :=
    match mlOutcome with
    | .error _ => none
    | .ok none => none
    | .ok (some t) => if t = "" then none else some t
  match s1 with
  | some t => some t
  | none =>
    let s2 := ask_phi oc window files processes memory now_hour rand
    if s2 ≠ "" then some s2
    else some (get_smart_suggestion window files processes memory now_hour rand)

/-! ## The learned predictor (`agent/ml/ml_predictor.py`) -/

/-- One candidate `{app_name, confidence}` (confidence in percent). -/
structure PredEntry where
  app_name : String
  confidence : ℚ
deriving DecidableEq

/-- The prediction dictionary returned by `predict_next_app`. -/
structure Prediction where
  top_prediction : PredEntry
  all_predictions : List PredEntry
deriving DecidableEq

/-- Python `l[-n:]`. -/
def lastN (n : Nat) (l : List String) : List String := l.drop (l.length - n)

/-- The confidence-banded template sets of
`generate_suggestion_from_prediction`. -/
def mkSuggestions (top_app : String) (confidence : ℚ) (current_app : String) :
    List String :=
  if confidence > 70 then
    ["You almost always use " ++ top_app ++ " after " ++ current_app ++
       ". Would you like to switch to it now?",
     "Based on your patterns, I" ++ sqS ++ "m very confident you" ++ sqS ++
       "ll want to use " ++ top_app ++ " next. Ready to switch?",
     "Your workflow typically continues with " ++ top_app ++ " (with " ++
       fmtQ1 confidence ++ "% confidence). Open it now?"]
  else if confidence > 50 then
    ["You often use " ++ top_app ++ " after " ++ current_app ++
       ". Would you like to open it?",
     "Based on your patterns, you might want to use " ++ top_app ++
       " next. Need it open?",
     "I notice you frequently switch to " ++ top_app ++
       " from here. Would that be helpful now?"]
  else
    ["You sometimes use " ++ top_app ++ " in this context. Would you like to open it?",
     "Would you like to open " ++ top_app ++ "? You" ++ sqS ++
       "ve used it in similar situations before.",
     "Based on your past activity, " ++ top_app ++
       " might be useful now. Want to switch to it?"]

/-- Embeds `generate_suggestion_from_prediction(prediction, current_window)`
together with the module-global `_last_suggestions` history (threaded in and
out).  `rchoice` is the `random.choice` oracle and `rdiv` the
`random.random() < 0.2` draw; the source's 20%-diversification block rebinds
`top_app`/`confidence` only after the template list has been built, so it
cannot change the returned text and `rdiv` is unused. -/
def generate_suggestion_from_prediction (prediction : Option Prediction)
    (current_window : String) (last_suggestions : List String) (rchoice : Nat)
    (rdiv : Bool) : Option String × List String :=
  let _ := rdiv
  match prediction with
  | none => (none, last_suggestions)
  | some pred =>
    let top_app := pred.top_prediction.app_name
    let confidence := pred.top_prediction.confidence
    let current_app := extract_app_name current_window
    let repeated := top_app ∈ lastN 3 last_suggestions
    if repeated ∧ ¬1 < pred.all_predictions.length then (none, last_suggestions)
    else
      let tc : String × ℚ :=
        if repeated then
          match pred.all_predictions.get? 1 with
          | some e => (e.app_name, e.confidence)
          | none => (top_app, confidence)
        else (top_app, confidence)
      let hist :=
        let h := last_suggestions ++ [tc.1]
        if 10 < h.length then h.drop 1 else h
      if tc.2 < 20 then (none, hist)
      else (some (pychoice (mkSuggestions tc.1 tc.2 current_app) rchoice), hist)

/-! ## Proof development: the normalizer invariants and idempotence (C3) -/

/- While reasoning about the normalizer on symbolic input, stop definitional
unfolding at the suffix-stripping stage (its definitional reduction on a
non-literal name is exponentially large); the attribute is reset to
semireducible before the theorems that evaluate the normalizer on concrete
strings. -/
attribute [irreducible] stripSuffixes

theorem char_toNat_ofNat_small (n : Nat) (h : n < 55296) : (Char.ofNat n).toNat = n := by
  unfold Char.ofNat
  rw [dif_pos (Or.inl h)]
  rfl

theorem toLower_not_upper (c : Char) :
    ¬(65 ≤ (Char.toLower c).toNat ∧ (Char.toLower c).toNat ≤ 90) := by
  unfold Char.toLower
  simp only []
  split
  · next h => rw [char_toNat_ofNat_small (c.toNat + 32) (by omega)]; omega
  · next h => omega

theorem toLower_fixed_of_good {c : Char} (h : goodChar c = true) :
    Char.toLower c = c := by
  have hn : ¬(65 ≤ c.toNat ∧ c.toNat ≤ 90) := by
    rcases Bool.or_eq_true_iff.mp h with h1 | h1
    · exact of_decide_eq_true (Bool.and_eq_true_iff.mp h1).2
    · have : c = ' ' := beq_iff_eq.mp h1
      subst this; decide
  unfold Char.toLower
  rw [if_neg hn]

theorem good_space_eq_space {c : Char} (hg : goodChar c = true)
    (hs : isPySpace c = true) : c = ' ' := by
  rcases Bool.or_eq_true_iff.mp hg with h1 | h1
  · exfalso
    have hw := (Bool.and_eq_true_iff.mp h1).1
    simp only [isWordChar, Bool.or_eq_true, decide_eq_true_eq, beq_iff_eq] at hw
    simp only [isPySpace, Bool.or_eq_true, beq_iff_eq] at hs
    omega
  · exact beq_iff_eq.mp h1

theorem good_of_word_notupper {c : Char} (hw : isWordChar c = true)
    (hu : ¬(65 ≤ c.toNat ∧ c.toNat ≤ 90)) : goodChar c = true := by
  simp only [goodChar, Bool.or_eq_true, Bool.and_eq_true_iff, decide_eq_true_eq]
  exact Or.inl ⟨hw, hu⟩

theorem keep_of_good {c : Char} (h : goodChar c = true) : keepChar c = true := by
  rcases Bool.or_eq_true_iff.mp h with h1 | h1
  · simp only [keepChar, Bool.or_eq_true]
    exact Or.inl (Bool.and_eq_true_iff.mp h1).1
  · have : c = ' ' := beq_iff_eq.mp h1
    subst this; decide

theorem word_not_space {c : Char} (hw : isWordChar c = true) :
    isPySpace c = false := by
  simp only [isWordChar, Bool.or_eq_true, decide_eq_true_eq, beq_iff_eq] at hw
  simp only [isPySpace, Bool.or_eq_false_iff, beq_eq_false_iff_ne, ne_eq]
  omega

/-! ### Every character produced by `normCore` is good -/

theorem mem_stripSuffixes {sfxs : List String} {l : List Char} :
    ∀ c ∈ stripSuffixes sfxs l, c ∈ l := by
  induction sfxs generalizing l with
  | nil => intro c hc; rw [stripSuffixes] at hc; exact hc
  | cons s rest ih =>
    intro c hc
    rw [stripSuffixes] at hc
    have := ih c hc
    split at this
    · exact List.take_subset _ _ this
    · exact this

theorem squeezeWsAux_cons_space {c : Char} (t : List Char)
    (h : isPySpace c = true) :
    squeezeWsAux false (c :: t) = ' ' :: squeezeWsAux true t ∧
    squeezeWsAux true (c :: t) = squeezeWsAux true t := by
  constructor <;> rw [squeezeWsAux, if_pos h] <;> simp

theorem squeezeWsAux_cons_nonspace {c : Char} (t : List Char)
    (h : ¬isPySpace c = true) (b : Bool) :
    squeezeWsAux b (c :: t) = c :: squeezeWsAux false t := by
  rw [squeezeWsAux, if_neg h]

theorem mem_squeezeWsAux {l : List Char} :
    ∀ b, ∀ c ∈ squeezeWsAux b l, c = ' ' ∨ (c ∈ l ∧ isPySpace c = false) := by
  induction l with
  | nil => intro b c hc; cases hc
  | cons d t ih =>
    intro b c hc
    by_cases hd : isPySpace d = true
    · cases b with
      | false =>
        rw [(squeezeWsAux_cons_space t hd).1] at hc
        rcases List.mem_cons.mp hc with hc | hc
        · exact Or.inl hc
        · rcases ih true c hc with h | ⟨h1, h2⟩
          · exact Or.inl h
          · exact Or.inr ⟨List.mem_cons_of_mem _ h1, h2⟩
      | true =>
        rw [(squeezeWsAux_cons_space t hd).2] at hc
        rcases ih true c hc with h | ⟨h1, h2⟩
        · exact Or.inl h
        · exact Or.inr ⟨List.mem_cons_of_mem _ h1, h2⟩
    · rw [squeezeWsAux_cons_nonspace t hd b] at hc
      rcases List.mem_cons.mp hc with hc | hc
      · subst hc
        exact Or.inr ⟨List.mem_cons_self _ _, by simpa using hd⟩
      · rcases ih false c hc with h | ⟨h1, h2⟩
        · exact Or.inl h
        · exact Or.inr ⟨List.mem_cons_of_mem _ h1, h2⟩

theorem mem_squeezeWs {l : List Char} :
    ∀ c ∈ squeezeWs l, c = ' ' ∨ (c ∈ l ∧ isPySpace c = false) :=
  mem_squeezeWsAux false

theorem mem_pyStrip {l : List Char} : ∀ c ∈ pyStrip l, c ∈ l := by
  intro c hc
  unfold pyStrip at hc
  rw [List.mem_reverse] at hc
  have := (List.dropWhile_sublist _).subset hc
  rw [List.mem_reverse] at this
  exact (List.dropWhile_sublist _).subset this

theorem allGood_normCore (l : List Char) : ∀ c ∈ normCore l, goodChar c = true := by
  intro c hc
  unfold normCore at hc
  have hc1 := mem_pyStrip _ hc
  rcases mem_squeezeWs _ hc1 with h | ⟨h1, h2⟩
  · subst h; decide
  · rw [List.mem_filter] at h1
    obtain ⟨hmem, hkeep⟩ := h1
    have hword : isWordChar c = true := by
      simp only [keepChar, Bool.or_eq_true] at hkeep
      rcases hkeep with h | h
      · exact h
      · rw [h] at h2; cases h2
    have hnu : ¬(65 ≤ c.toNat ∧ c.toNat ≤ 90) := by
      have := mem_stripSuffixes _ (mem_stripSuffixes _ hmem)
      rw [List.mem_map] at this
      obtain ⟨d, _, hd⟩ := this
      rw [← hd]
      exact toLower_not_upper d
    exact good_of_word_notupper hword hnu

/-! ### Structural invariants: whitespace is collapsed and trimmed -/

theorem headNotSpace_dropWhile (l : List Char) :
    headNotSpace (l.dropWhile isPySpace) = true := by
  induction l with
  | nil => rfl
  | cons c t ih =>
    by_cases h : isPySpace c = true
    · rw [List.dropWhile_cons_of_pos h]; exact ih
    · rw [List.dropWhile_cons_of_neg h]
      simp [headNotSpace, h]

theorem headNotSpace_squeezeWsAux_true (l : List Char) :
    headNotSpace (squeezeWsAux true l) = true := by
  induction l with
  | nil => rfl
  | cons c t ih =>
    by_cases hc : isPySpace c = true
    · rw [(squeezeWsAux_cons_space t hc).2]; exact ih
    · rw [squeezeWsAux_cons_nonspace t hc true]
      simp only [headNotSpace, Bool.not_eq_true']
      simpa using hc

theorem headNotSpace_squeezeWs {l : List Char} (h : headNotSpace l = true) :
    headNotSpace (squeezeWs l) = true := by
  cases l with
  | nil => rfl
  | cons c t =>
    simp only [headNotSpace, Bool.not_eq_true'] at h
    rw [squeezeWs, squeezeWsAux_cons_nonspace t (by simp [h]) false]
    simp [headNotSpace, h]

theorem noWsPair_squeezeWsAux (l : List Char) :
    ∀ b, NoWsPair (squeezeWsAux b l) := by
  induction l with
  | nil => intro b; exact List.chain'_nil
  | cons c t ih =>
    intro b
    by_cases hc : isPySpace c = true
    · cases b with
      | true => rw [(squeezeWsAux_cons_space t hc).2]; exact ih true
      | false =>
        rw [(squeezeWsAux_cons_space t hc).1]
        rw [NoWsPair, List.chain'_cons']
        refine ⟨?_, ih true⟩
        intro y hy
        have hh := headNotSpace_squeezeWsAux_true t
        cases hsq : squeezeWsAux true t with
        | nil => rw [hsq] at hy; cases hy
        | cons d r =>
          rw [hsq] at hy hh
          simp only [List.head?_cons, Option.mem_def, Option.some.injEq] at hy
          subst hy
          simp only [headNotSpace, Bool.not_eq_true'] at hh
          intro hcon
          rw [hh] at hcon
          exact Bool.false_ne_true hcon.2
    · rw [squeezeWsAux_cons_nonspace t hc b]
      rw [NoWsPair, List.chain'_cons']
      refine ⟨?_, ih false⟩
      intro y _ hcon
      exact hc hcon.1

theorem noWsPair_squeezeWs (l : List Char) : NoWsPair (squeezeWs l) :=
  noWsPair_squeezeWsAux l false

theorem noWsPair_dropWhile {l : List Char} (h : NoWsPair l) :
    NoWsPair (l.dropWhile isPySpace) := by
  induction l with
  | nil => exact h
  | cons c t ih =>
    by_cases hc : isPySpace c = true
    · rw [List.dropWhile_cons_of_pos hc]
      exact ih h.tail
    · rw [List.dropWhile_cons_of_neg hc]
      exact h

theorem noWsPair_reverse {l : List Char} (h : NoWsPair l) : NoWsPair l.reverse := by
  rw [NoWsPair, List.chain'_reverse]
  exact h.imp fun a b hab hcon => hab ⟨hcon.2, hcon.1⟩

theorem noWsPair_pyStrip {l : List Char} (h : NoWsPair l) : NoWsPair (pyStrip l) := by
  unfold pyStrip
  exact noWsPair_reverse (noWsPair_dropWhile (noWsPair_reverse (noWsPair_dropWhile h)))

theorem headNotSpace_of_prefix {l₁ l₂ : List Char} (hp : l₁ <+: l₂)
    (h : headNotSpace l₂ = true) : headNotSpace l₁ = true := by
  obtain ⟨t, rfl⟩ := hp
  cases l₁ with
  | nil => rfl
  | cons c r => simpa [headNotSpace] using h

theorem headNotSpace_pyStrip (l : List Char) : headNotSpace (pyStrip l) = true := by
  unfold pyStrip
  have hsfx : ((l.dropWhile isPySpace).reverse.dropWhile isPySpace) <:+
      (l.dropWhile isPySpace).reverse := List.dropWhile_suffix _
  have hp : ((l.dropWhile isPySpace).reverse.dropWhile isPySpace).reverse <+:
      (l.dropWhile isPySpace).reverse.reverse := List.reverse_prefix.mpr hsfx
  rw [List.reverse_reverse] at hp
  exact headNotSpace_of_prefix hp (headNotSpace_dropWhile l)

theorem lastNotSpace_pyStrip (l : List Char) :
    headNotSpace (pyStrip l).reverse = true := by
  unfold pyStrip
  rw [List.reverse_reverse]
  exact headNotSpace_dropWhile _

/-! ### The normalizer is the identity on already-normalized text -/

theorem map_id_of_fixed {l : List Char} {f : Char → Char}
    (h : ∀ a ∈ l, f a = a) : l.map f = l := by
  induction l with
  | nil => rfl
  | cons c t ih =>
    rw [List.map_cons, h c (List.mem_cons_self _ _),
      ih fun a ha => h a (List.mem_cons_of_mem _ ha)]

theorem pyEndsWith_false_of_bad {l : List Char} {sfx : String}
    (hbad : ∃ c ∈ sfx.data, goodChar c = false)
    (hl : ∀ c ∈ l, goodChar c = true) : pyEndsWith l sfx.data = false := by
  obtain ⟨c, hc, hbadc⟩ := hbad
  by_contra hcon
  rw [Bool.not_eq_false] at hcon
  unfold pyEndsWith at hcon
  have hpre : sfx.data.reverse <+: l.reverse := List.isPrefixOf_iff_prefix.mp hcon
  have hmem : c ∈ l := by
    have : c ∈ sfx.data.reverse := List.mem_reverse.mpr hc
    have := hpre.subset this
    exact List.mem_reverse.mp this
  rw [hl c hmem] at hbadc
  cases hbadc

theorem stripSuffixes_id {sfxs : List String} {l : List Char}
    (hb : ∀ sfx ∈ sfxs, ∃ c ∈ sfx.data, goodChar c = false)
    (hl : ∀ c ∈ l, goodChar c = true) : stripSuffixes sfxs l = l := by
  induction sfxs with
  | nil => rw [stripSuffixes]
  | cons s rest ih =>
    rw [stripSuffixes]
    rw [pyEndsWith_false_of_bad (hb s (List.mem_cons_self _ _)) hl]
    simp only [Bool.false_eq_true, if_false]
    exact ih fun sfx hs => hb sfx (List.mem_cons_of_mem _ hs)

theorem filter_keep_id {l : List Char} (hl : ∀ c ∈ l, goodChar c = true) :
    l.filter keepChar = l :=
  List.filter_eq_self.mpr fun c hc => keep_of_good (hl c hc)

theorem dropWhile_eq_self_of_head {l : List Char}
    (h : headNotSpace l = true) : l.dropWhile isPySpace = l := by
  cases l with
  | nil => rfl
  | cons c t =>
    simp only [headNotSpace, Bool.not_eq_true'] at h
    rw [List.dropWhile_cons_of_neg (by simp [h])]

theorem squeezeWsAux_true_eq_false {l : List Char}
    (h : headNotSpace l = true) : squeezeWsAux true l = squeezeWsAux false l := by
  cases l with
  | nil => rfl
  | cons c t =>
    simp only [headNotSpace, Bool.not_eq_true'] at h
    rw [squeezeWsAux_cons_nonspace t (by simp [h]) true,
      squeezeWsAux_cons_nonspace t (by simp [h]) false]

theorem squeezeWs_id {l : List Char} (hg : ∀ c ∈ l, goodChar c = true)
    (hp : NoWsPair l) : squeezeWs l = l := by
  induction l with
  | nil => rfl
  | cons c t ih =>
    have hgt : ∀ d ∈ t, goodChar d = true :=
      fun d hd => hg d (List.mem_cons_of_mem _ hd)
    by_cases hc : isPySpace c = true
    · have hcsp : c = ' ' := good_space_eq_space (hg c (List.mem_cons_self _ _)) hc
      have hht : headNotSpace t = true := by
        cases t with
        | nil => rfl
        | cons d r =>
          have hR := (List.chain'_cons'.mp hp).1 d (by simp)
          simp only [headNotSpace, Bool.not_eq_true']
          by_contra hcon
          rw [Bool.not_eq_false] at hcon
          exact hR ⟨hc, hcon⟩
      rw [squeezeWs, (squeezeWsAux_cons_space t hc).1,
        squeezeWsAux_true_eq_false hht]
      rw [show squeezeWsAux false t = squeezeWs t from rfl, ih hgt hp.tail, hcsp]
    · rw [squeezeWs, squeezeWsAux_cons_nonspace t hc false]
      rw [show squeezeWsAux false t = squeezeWs t from rfl, ih hgt hp.tail]

theorem pyStrip_id {l : List Char} (h1 : headNotSpace l = true)
    (h2 : headNotSpace l.reverse = true) : pyStrip l = l := by
  unfold pyStrip
  rw [dropWhile_eq_self_of_head h1, dropWhile_eq_self_of_head h2,
    List.reverse_reverse]

/-- Bad-character witnesses for the two suffix tables. -/
theorem normSuffixes_bad :
    (∀ sfx ∈ normExtensions, ∃ c ∈ sfx.data, goodChar c = false) ∧
    (∀ sfx ∈ normIndicators, ∃ c ∈ sfx.data, goodChar c = false) := by
  constructor <;> decide

theorem normCore_id {l : List Char} (hg : ∀ c ∈ l, goodChar c = true)
    (hp : NoWsPair l) (hh : headNotSpace l = true)
    (ht : headNotSpace l.reverse = true) : normCore l = l := by
  unfold normCore
  rw [map_id_of_fixed fun a ha => toLower_fixed_of_good (hg a ha)]
  rw [stripSuffixes_id normSuffixes_bad.1 hg]
  rw [stripSuffixes_id normSuffixes_bad.2 hg]
  rw [filter_keep_id hg]
  rw [squeezeWs_id hg hp]
  exact pyStrip_id hh ht

theorem normCore_idem (l : List Char) : normCore (normCore l) = normCore l := by
  apply normCore_id
  · exact allGood_normCore l
  · unfold normCore
    exact noWsPair_pyStrip (noWsPair_squeezeWs _)
  · unfold normCore
    exact headNotSpace_pyStrip _
  · unfold normCore
    exact lastNotSpace_pyStrip _

/-- C3: the normalizer is idempotent. -/
theorem c3_normalize_idempotent (s : String) :
    normalize_app_name (normalize_app_name s) = normalize_app_name s := by
  unfold normalize_app_name
  by_cases hs : s = ""
  · simp [hs]
  · rw [if_neg hs]
    by_cases hz : normCore s.data = []
    · rw [hz]
      rfl
    · have hne : (⟨normCore s.data⟩ : String) ≠ "" := by
        intro hcon
        apply hz
        have : (⟨normCore s.data⟩ : String).data = ("" : String).data := by rw [hcon]
        simpa using this
      rw [if_neg hne]
      show (⟨normCore (⟨normCore s.data⟩ : String).data⟩ : String) = _
      rw [show (⟨normCore s.data⟩ : String).data = normCore s.data from rfl]
      rw [normCore_idem]

set_option allowUnsafeReducibility true in
attribute [semireducible] stripSuffixes

/-! ## Helper lemmas for the claim theorems -/

theorem pyIn_iff (n : List Char) (h : List Char) : pyIn n h = true ↔ n <:+: h := by
  induction h with
  | nil =>
    simp only [pyIn, List.isPrefixOf_iff_prefix, List.infix_nil, List.prefix_nil]
  | cons c t ih =>
    simp only [pyIn, Bool.or_eq_true, List.isPrefixOf_iff_prefix, ih,
      List.infix_cons_iff]

/-- Characterization of the fuzzy matcher: followed iff the names are equal,
or both are non-empty and one is an infix of the other, or both are longer
than 3 characters and more than 80% of the positions of the longer one hold
pairwise-equal characters. -/
theorem fuzzyFollowed_iff (a b : String) :
    fuzzyFollowed a b = true ↔
      (a = b ∨ (a ≠ "" ∧ b ≠ "" ∧
        (a.data <:+: b.data ∨ b.data <:+: a.data ∨
          (3 < a.length ∧ 3 < b.length ∧
            (0.8 : ℚ) * ((max a.length b.length : Nat) : ℚ) <
              (countEqPos a.data b.data : ℚ))))) := by
  unfold fuzzyFollowed
  by_cases hba : b = a
  · subst hba
    simp
  · have h1 : (b == a) = false := beq_eq_false_iff_ne.mpr hba
    have h1' : a ≠ b := fun hcon => hba hcon.symm
    rw [h1]
    simp only [pyContains]
    by_cases ha : a = ""
    · have hc : ((!false && !(a == "")) && !(b == "")) = false := by
        rw [ha]; simp
      rw [hc]
      simp only [Bool.false_eq_true, if_false, false_iff]
      intro hcon
      rcases hcon with hcon | ⟨hcon, _⟩
      · exact h1' hcon
      · exact hcon ha
    · by_cases hb : b = ""
      · have hc : ((!false && !(a == "")) && !(b == "")) = false := by
          rw [hb]; simp
        rw [hc]
        simp only [Bool.false_eq_true, if_false, false_iff]
        intro hcon
        rcases hcon with hcon | ⟨_, hcon, _⟩
        · exact h1' hcon
        · exact hcon hb
      · have hc : ((!false && !(a == "")) && !(b == "")) = true := by
          simp [beq_eq_false_iff_ne.mpr ha, beq_eq_false_iff_ne.mpr hb]
        rw [hc]
        simp only [if_true]
        by_cases hsub : (pyIn a.data b.data || pyIn b.data a.data) = true
        · rw [hsub]
          simp only [if_true, true_iff]
          rcases Bool.or_eq_true_iff.mp hsub with hs | hs
          · exact Or.inr ⟨ha, hb, Or.inl ((pyIn_iff _ _).mp hs)⟩
          · exact Or.inr ⟨ha, hb, Or.inr (Or.inl ((pyIn_iff _ _).mp hs))⟩
        · rw [Bool.not_eq_true] at hsub
          rw [hsub]
          simp only [Bool.false_eq_true, if_false]
          have hsub1 : ¬ a.data <:+: b.data := fun hcon => by
            rw [Bool.or_eq_false_iff] at hsub
            exact absurd ((pyIn_iff _ _).mpr hcon) (by rw [hsub.1]; simp)
          have hsub2 : ¬ b.data <:+: a.data := fun hcon => by
            rw [Bool.or_eq_false_iff] at hsub
            exact absurd ((pyIn_iff _ _).mpr hcon) (by rw [hsub.2]; simp)
          by_cases hlen : (a.length > 3 && b.length > 3) = true
          · rw [hlen]
            simp only [if_true, decide_eq_true_eq]
            have hlen' := Bool.and_eq_true_iff.mp hlen
            have hl1 : 3 < a.length := by simpa using hlen'.1
            have hl2 : 3 < b.length := by simpa using hlen'.2
            constructor
            · intro hr
              refine Or.inr ⟨ha, hb, Or.inr (Or.inr ⟨hl1, hl2, ?_⟩)⟩
              have hr' : (8 : ℚ) * ((max a.length b.length : Nat) : ℚ) <
                  10 * (countEqPos a.data b.data : ℚ) := by exact_mod_cast hr
              linarith
            · intro hr
              rcases hr with hcon | ⟨_, _, hor⟩
              · exact absurd hcon h1'
              · rcases hor with hcon | hcon | ⟨_, _, hr⟩
                · exact absurd hcon hsub1
                · exact absurd hcon hsub2
                · have hr' : (8 : ℚ) * ((max a.length b.length : Nat) : ℚ) <
                      10 * (countEqPos a.data b.data : ℚ) := by linarith
                  exact_mod_cast hr'
          · rw [Bool.not_eq_true] at hlen
            rw [hlen]
            simp only [Bool.false_eq_true, if_false, false_iff]
            intro hcon
            rcases hcon with hcon | ⟨_, _, hor⟩
            · exact absurd hcon h1'
            · rcases hor with hcon | hcon | ⟨hL1, hL2, _⟩
              · exact absurd hcon hsub1
              · exact absurd hcon hsub2
              · rw [Bool.and_eq_false_iff] at hlen
                rcases hlen with hl | hl <;>
                  simp only [decide_eq_false_iff_not] at hl
                · exact hl hL1
                · exact hl hL2

/-- The feedback recorder either leaves the state unchanged, or only clears
the pending slot, or clears the slot and appends exactly one record while
bumping `total` and exactly one of `followed`/`ignored`. -/
theorem record_cases (st : FeedbackState) (cw : String) (now : Nat) :
    record_suggestion_feedback cw now st = st ∨
    record_suggestion_feedback cw now st =
      { st with last_suggestion := clearedSuggestion } ∨
    ∃ r : SuggestionRecord,
      record_suggestion_feedback cw now st =
        { last_suggestion := clearedSuggestion,
          data := { suggestions := st.data.suggestions ++ [r],
                    stats := { total := st.data.stats.total + 1,
                               followed := st.data.stats.followed +
                                 (if r.followed then 1 else 0),
                               ignored := st.data.stats.ignored +
                                 (if r.followed then 0 else 1) } } } := by
  obtain ⟨⟨otext, oapp, ots⟩, data⟩ := st
  cases otext with
  | none => cases ots <;> exact Or.inl rfl
  | some t =>
    cases ots with
    | none => exact Or.inl rfl
    | some ts =>
      unfold record_suggestion_feedback
      simp only []
      by_cases h2 : t = ""
      · rw [if_pos h2]; exact Or.inl rfl
      · rw [if_neg h2]
        by_cases h4 : ((now : ℤ) - (ts : ℤ)) > 300
        · rw [if_pos h4]; exact Or.inr (Or.inl rfl)
        · rw [if_neg h4]
          exact Or.inr (Or.inr ⟨_, rfl⟩)

/-! ## Claim theorems -/

/-- C1, counterexample: a pending suggestion whose app normalizes to
"visual studio code" against a current window normalizing to "vscode" is
classified as NOT followed — neither normalized string is a contiguous
substring of the other, and only 1 of 18 positions agree — contradicting the
claim that this pair is followed via the substring rule. -/
theorem c1_counterexample :
    normalize_app_name "Visual Studio Code" = "visual studio code" ∧
    normalize_app_name "VSCode" = "vscode" ∧
    fuzzyFollowed "visual studio code" "vscode" = false ∧
    fuzzyFollowed "vscode" "visual studio code" = false ∧
    (record_suggestion_feedback "vscode" 10
        { last_suggestion := { text := some "Switch to Visual Studio Code",
                               app_name := some "Visual Studio Code",
                               timestamp := some 0 },
          data := initial_feedback_data }).data.suggestions =
      [{ timestamp := 0, suggestion_text := "Switch to Visual Studio Code",
         suggested_app := some "Visual Studio Code", followed := false,
         time_to_respond := 10, current_app := "vscode" }] := by
  decide

/-- C1, amended: the match rule is — followed iff the normalized strings are
equal, or both are non-empty and one is a substring of the other, or both
exceed 3 characters and the positionwise character agreement exceeds 0.8 of
the longer length.  Under this rule "visual studio code" vs "vscode" is NOT
followed (no substring relation holds), and "chrome" vs "firefox" is not
followed. -/
theorem c1_amended_match_rule :
    (∀ a b : String, fuzzyFollowed a b = true ↔
      (a = b ∨ (a ≠ "" ∧ b ≠ "" ∧
        (a.data <:+: b.data ∨ b.data <:+: a.data ∨
          (3 < a.length ∧ 3 < b.length ∧
            (0.8 : ℚ) * ((max a.length b.length : Nat) : ℚ) <
              (countEqPos a.data b.data : ℚ)))))) ∧
    fuzzyFollowed "visual studio code" "vscode" = false ∧
    fuzzyFollowed "chrome" "firefox" = false := by
  exact ⟨fuzzyFollowed_iff, by decide, by decide⟩

/-- C2, counterexample: on the first two fixed inputs the extractor does not
return the claimed actions — the `switch to` capture greedily grabs the whole
sentence tail, and the shortcut regex does not match "pressing" (the verb
list is `try|use|press` followed by whitespace), so the second input falls
through to the tip classifier. -/
theorem c2_counterexample :
    extract_action_from_suggestion
        (some "Switch to Visual Studio Code to continue your project.") ≠
      Except.ok ⟨some "open_app", some "visual studio code"⟩ ∧
    extract_action_from_suggestion
        (some "Try pressing ctrl+shift+p for the command palette.") ≠
      Except.ok ⟨some "keyboard_shortcut", some "ctrl+shift+p"⟩ := by
  decide

/-- C2, amended: the three fixed inputs give — open_app with the whole
captured tail "visual studio code to continue your project"; show_tip with
the full sentence (the shortcut phrase "Try pressing" does not fit the
shortcut regex, and "try" is a tip indicator); open_website "github.com" as
claimed. -/
theorem c2_amended_extraction :
    extract_action_from_suggestion
        (some "Switch to Visual Studio Code to continue your project.") =
      Except.ok ⟨some "open_app", some "visual studio code to continue your project"⟩ ∧
    extract_action_from_suggestion
        (some "Try pressing ctrl+shift+p for the command palette.") =
      Except.ok ⟨some "show_tip",
        some "Try pressing ctrl+shift+p for the command palette."⟩ ∧
    extract_action_from_suggestion (some "You often visit github.com after coding.") =
      Except.ok ⟨some "open_website", some "github.com"⟩ := by
  decide

/-- C4: appending a snapshot with a missing/empty window title, or a
missing/empty file list, or a missing/empty process list, returns false and
leaves the memory unchanged. -/
theorem c4_snapshot_validation (w : Option String) (fs ps : Option (List String))
    (now : Nat) (mem : List MemEntry)
    (h : w = none ∨ w = some "" ∨ fs = none ∨ fs = some [] ∨
      ps = none ∨ ps = some []) :
    log_to_memory w fs ps now mem = (false, mem) := by
  rcases h with rfl | rfl | rfl | rfl | rfl | rfl
  · simp [log_to_memory]
  · simp [log_to_memory]
  · cases w with
    | none => simp [log_to_memory]
    | some w' => by_cases hw : w' = "" <;> simp [log_to_memory, hw]
  · cases w with
    | none => simp [log_to_memory]
    | some w' => by_cases hw : w' = "" <;> simp [log_to_memory, hw]
  · cases w with
    | none => simp [log_to_memory]
    | some w' =>
      by_cases hw : w' = "" <;>
        cases fs with
        | none => simp [log_to_memory, hw]
        | some l => cases l <;> simp [log_to_memory, hw]
  · cases w with
    | none => simp [log_to_memory]
    | some w' =>
      by_cases hw : w' = "" <;>
        cases fs with
        | none => simp [log_to_memory, hw]
        | some l => cases l <;> simp [log_to_memory, hw]

/-- C4, witness: an empty window title is rejected on a concrete store. -/
theorem c4_snapshot_validation_witness :
    log_to_memory (some "") (some ["a.py"]) (some ["python.exe"]) 5
        [{ window := some "w" }] =
      (false, [{ window := some "w" }]) :=
  c4_snapshot_validation (some "") (some ["a.py"]) (some ["python.exe"]) 5
    [{ window := some "w" }] (Or.inr (Or.inl rfl))

/-- C5: a pending suggestion whose age exceeds 300 seconds produces no
record and leaves the stats unchanged while the slot is cleared; and
whenever a call changes the stored data (i.e. records feedback), the slot is
cleared as well. -/
theorem c5_feedback_timing :
    (∀ (st : FeedbackState) (cw : String) (now : Nat) (t : String) (ts : Nat),
      st.last_suggestion.text = some t → t ≠ "" →
      st.last_suggestion.timestamp = some ts →
      (300 : ℤ) < (now : ℤ) - (ts : ℤ) →
      record_suggestion_feedback cw now st =
        { st with last_suggestion := clearedSuggestion }) ∧
    (∀ (st : FeedbackState) (cw : String) (now : Nat),
      (record_suggestion_feedback cw now st).data ≠ st.data →
      (record_suggestion_feedback cw now st).last_suggestion =
        clearedSuggestion) := by
  constructor
  · intro st cw now t ts h1 h2 h3 h4
    unfold record_suggestion_feedback
    rw [h1, h3]
    simp only []
    rw [if_neg h2, if_pos (by omega)]
  · intro st cw now hne
    rcases record_cases st cw now with h | h | ⟨r, h⟩
    · rw [h] at hne; exact absurd rfl hne
    · rw [h]
    · rw [h]

/-- C5, witness: a 400-second-old pending suggestion at a concrete state is
discarded with the slot cleared and the data untouched. -/
theorem c5_feedback_timing_witness :
    record_suggestion_feedback "vscode" 400
        { last_suggestion := { text := some "Open chrome",
                               app_name := some "chrome", timestamp := some 10 },
          data := initial_feedback_data } =
      { last_suggestion := clearedSuggestion, data := initial_feedback_data } :=
  c5_feedback_timing.1
    { last_suggestion := { text := some "Open chrome",
                           app_name := some "chrome", timestamp := some 10 },
      data := initial_feedback_data }
    "vscode" 400 "Open chrome" 10 rfl (by decide) rfl (by decide)

/-- C6, counterexample: on a memory of three "Editor - file.py" entries
followed by two "Browser - tab" entries, with current app "Editor", the
next-apps ranking is [("Editor", 2), ("Browser", 1)] — the self-transitions
Editor→Editor are counted, so "Browser" is NOT ranked first (and its count
is 1, not 2). -/
theorem c6_counterexample :
    ¬((analyze_user_patterns
        (List.replicate 3 { window := some "Editor - file.py" } ++
          List.replicate 2 { window := some "Browser - tab" })
        "Editor - file.py" [] []).next_apps.head? = some ("Browser", 2)) ∧
    (analyze_user_patterns
        (List.replicate 3 { window := some "Editor - file.py" } ++
          List.replicate 2 { window := some "Browser - tab" })
        "Editor - file.py" [] []).next_apps.head? = some ("Editor", 2) := by
  decide

/-- C6, amended: on that memory the aggregation ranks "Editor" first with
count 2 (two observed Editor→Editor adjacencies) and "Browser" second with
count 1 (the single observed Editor→Browser transition). -/
theorem c6_amended_next_apps :
    (analyze_user_patterns
        (List.replicate 3 { window := some "Editor - file.py" } ++
          List.replicate 2 { window := some "Browser - tab" })
        "Editor - file.py" [] []).next_apps =
      [("Editor", 2), ("Browser", 1)] := by
  decide

/-- C7: when the top candidate was among the last 3 recorded suggestions,
the generator emits nothing if there is no second candidate; and when a
second candidate exists it either emits nothing (low confidence) or emits a
suggestion built from the second candidate. -/
theorem c7_anti_repetition (pred : Prediction) (cw : String) (hist : List String)
    (i : Nat) (rdiv : Bool)
    (hrep : pred.top_prediction.app_name ∈ lastN 3 hist) :
    (pred.all_predictions.length ≤ 1 →
      (generate_suggestion_from_prediction (some pred) cw hist i rdiv).1 = none) ∧
    (∀ e, pred.all_predictions.get? 1 = some e →
      (generate_suggestion_from_prediction (some pred) cw hist i rdiv).1 = none ∨
      (generate_suggestion_from_prediction (some pred) cw hist i rdiv).1 =
        some (pychoice (mkSuggestions e.app_name e.confidence (extract_app_name cw)) i)) := by
  constructor
  · intro hlen
    unfold generate_suggestion_from_prediction
    simp only []
    rw [if_pos ⟨hrep, by omega⟩]
  · intro e he
    have hlen : 1 < pred.all_predictions.length := by
      by_contra hcon
      push_neg at hcon
      rw [List.get?_eq_none.mpr (by omega)] at he
      cases he
    unfold generate_suggestion_from_prediction
    simp only []
    rw [if_neg (fun hcon => hcon.2 hlen)]
    rw [if_pos hrep, he]
    simp only []
    by_cases hc : e.confidence < 20
    · rw [if_pos hc]
      exact Or.inl rfl
    · rw [if_neg hc]
      exact Or.inr rfl

/-- C7, witness: with "chrome" suggested in the last cycle and candidates
[chrome 90%, firefox 60%], the emitted suggestion is built from the
second-ranked "firefox". -/
theorem c7_anti_repetition_witness :
    (generate_suggestion_from_prediction
        (some ⟨⟨"chrome", 90⟩, [⟨"chrome", 90⟩, ⟨"firefox", 60⟩]⟩)
        "zeroinput" ["chrome"] 0 false).1 = none ∨
    (generate_suggestion_from_prediction
        (some ⟨⟨"chrome", 90⟩, [⟨"chrome", 90⟩, ⟨"firefox", 60⟩]⟩)
        "zeroinput" ["chrome"] 0 false).1 =
      some (pychoice (mkSuggestions "firefox" 60 (extract_app_name "zeroinput")) 0) :=
  (c7_anti_repetition ⟨⟨"chrome", 90⟩, [⟨"chrome", 90⟩, ⟨"firefox", 60⟩]⟩
    "zeroinput" ["chrome"] 0 false (by decide)).2 ⟨"firefox", 60⟩ rfl

/-- C8, counterexample: with the ML tier returning none and the LLM timing
out, the cycle returns the email-category tip chosen inside the LLM tier's
exception handler, while the heuristic ranker alone on the same snapshot and
seed returns a workflow suggestion — the two differ. -/
theorem c8_counterexample :
    runCycleSuggestion (.ok none) .timeout "Gmail - Google Chrome" []
        ["chrome.exe"]
        [{ window := some "Gmail - Google Chrome" }, { window := some "Editor - x" },
         { window := some "Gmail - Google Chrome" }, { window := some "Editor - x" },
         { window := some "Gmail - Google Chrome" }, { window := some "Editor - x" },
         { window := some "Gmail - Google Chrome" }] 9 0 =
      some "Manage your inbox with filters and quick replies." ∧
    get_smart_suggestion "Gmail - Google Chrome" [] ["chrome.exe"]
        [{ window := some "Gmail - Google Chrome" }, { window := some "Editor - x" },
         { window := some "Gmail - Google Chrome" }, { window := some "Editor - x" },
         { window := some "Gmail - Google Chrome" }, { window := some "Editor - x" },
         { window := some "Gmail - Google Chrome" }] 9 0 =
      "You often open Editor after using Gmail. Would you like to open it now?" ∧
    ("Manage your inbox with filters and quick replies." : String) ≠
      "You often open Editor after using Gmail. Would you like to open it now?" := by
  refine ⟨by decide, by decide, by decide⟩

/-- C8, amended: when the ML tier raises or returns none and the LLM tier
times out or finds Ollama unavailable, the cycle returns exactly the
fallback computed inside `ask_phi`'s exception handler: a seeded-random tip
from the context category when that category is not "default", and otherwise
the heuristic ranker on the truncated context (first 3 files and first 3
processes). -/
theorem c8_amended_fallthrough (ml : Except Unit (Option String))
    (oc : OllamaOutcome) (w : String) (files procs : List String)
    (mem : List MemEntry) (hr : Nat) (r : Nat)
    (hml : ml = .error () ∨ ml = .ok none)
    (hoc : oc = .timeout ∨ oc = .notRunning)
    (hne : ask_phi oc w files procs mem hr r ≠ "") :
    runCycleSuggestion ml oc w files procs mem hr r =
      some (ask_phi oc w files procs mem hr r) ∧
    ask_phi oc w files procs mem hr r =
      (let c := get_context_category w (procs.take 3)
       if c ≠ "default" ∧ (APP_SUGGESTIONS c).isSome then
         pychoice ((APP_SUGGESTIONS c).getD []) r
       else get_smart_suggestion w (files.take 3) (procs.take 3) mem hr r) := by
  constructor
  · unfold runCycleSuggestion
    rcases hml with rfl | rfl <;> simp only [] <;> rw [if_pos hne]
  · unfold ask_phi
    rcases hoc with rfl | rfl <;> rfl

/-- C8, witness: the fallthrough equation instantiated at a concrete
empty-memory snapshot in the email category. -/
theorem c8_amended_fallthrough_witness :
    runCycleSuggestion (.ok none) .timeout "Gmail - Google Chrome" []
        ["chrome.exe"] [] 9 0 =
      some (ask_phi .timeout "Gmail - Google Chrome" [] ["chrome.exe"] [] 9 0) ∧
    ask_phi .timeout "Gmail - Google Chrome" [] ["chrome.exe"] [] 9 0 =
      (let c := get_context_category "Gmail - Google Chrome" (["chrome.exe"].take 3)
       if c ≠ "default" ∧ (APP_SUGGESTIONS c).isSome then
         pychoice ((APP_SUGGESTIONS c).getD []) 0
       else get_smart_suggestion "Gmail - Google Chrome" ([].take 3)
         (["chrome.exe"].take 3) [] 9 0) :=
  c8_amended_fallthrough (.ok none) .timeout "Gmail - Google Chrome" []
    ["chrome.exe"] [] 9 0 (Or.inr rfl) (Or.inl rfl) (by decide)

/-- C9: the freshly initialized feedback store satisfies
total = followed + ignored = number of records; the recorder preserves this
invariant; and every call that changes the store appends exactly one record,
incrementing total by 1 and exactly one of followed/ignored by 1. -/
theorem c9_stats_invariant :
    (initial_feedback_data.stats.total =
        initial_feedback_data.stats.followed + initial_feedback_data.stats.ignored ∧
      initial_feedback_data.stats.total = initial_feedback_data.suggestions.length) ∧
    (∀ (st : FeedbackState) (cw : String) (now : Nat),
      st.data.stats.total = st.data.stats.followed + st.data.stats.ignored →
      st.data.stats.total = st.data.suggestions.length →
      ((record_suggestion_feedback cw now st).data.stats.total =
          (record_suggestion_feedback cw now st).data.stats.followed +
            (record_suggestion_feedback cw now st).data.stats.ignored ∧
        (record_suggestion_feedback cw now st).data.stats.total =
          (record_suggestion_feedback cw now st).data.suggestions.length)) ∧
    (∀ (st : FeedbackState) (cw : String) (now : Nat),
      (record_suggestion_feedback cw now st).data ≠ st.data →
      (record_suggestion_feedback cw now st).data.stats.total =
          st.data.stats.total + 1 ∧
        (record_suggestion_feedback cw now st).data.suggestions.length =
          st.data.suggestions.length + 1 ∧
        (((record_suggestion_feedback cw now st).data.stats.followed =
            st.data.stats.followed + 1 ∧
          (record_suggestion_feedback cw now st).data.stats.ignored =
            st.data.stats.ignored) ∨
         ((record_suggestion_feedback cw now st).data.stats.ignored =
            st.data.stats.ignored + 1 ∧
          (record_suggestion_feedback cw now st).data.stats.followed =
            st.data.stats.followed))) := by
  refine ⟨⟨rfl, rfl⟩, ?_, ?_⟩
  · intro st cw now h1 h2
    rcases record_cases st cw now with h | h | ⟨r, h⟩ <;> rw [h]
    · exact ⟨h1, h2⟩
    · exact ⟨h1, h2⟩
    · refine ⟨?_, ?_⟩
      · cases r.followed <;> simp <;> omega
      · simp only [List.length_append, List.length_cons, List.length_nil]
        omega
  · intro st cw now hne
    rcases record_cases st cw now with h | h | ⟨r, h⟩
    · rw [h] at hne; exact absurd rfl hne
    · rw [h] at hne; exact absurd rfl hne
    · rw [h]
      refine ⟨rfl, ?_, ?_⟩
      · simp
      · cases r.followed <;> simp

/-- C9, witness: recording feedback on a concrete store with total 1 yields
total 2 = followed + ignored = number of records. -/
theorem c9_stats_invariant_witness :
    ((record_suggestion_feedback "vscode" 10
        { last_suggestion := { text := some "Open chrome",
                               app_name := some "chrome", timestamp := some 0 },
          data := { suggestions :=
                      [{ timestamp := 0, suggestion_text := "s",
                         suggested_app := none, followed := true,
                         time_to_respond := 1, current_app := "a" }],
                    stats := ⟨1, 1, 0⟩ } }).data.stats.total =
      (record_suggestion_feedback "vscode" 10
        { last_suggestion := { text := some "Open chrome",
                               app_name := some "chrome", timestamp := some 0 },
          data := { suggestions :=
                      [{ timestamp := 0, suggestion_text := "s",
                         suggested_app := none, followed := true,
                         time_to_respond := 1, current_app := "a" }],
                    stats := ⟨1, 1, 0⟩ } }).data.stats.followed +
      (record_suggestion_feedback "vscode" 10
        { last_suggestion := { text := some "Open chrome",
                               app_name := some "chrome", timestamp := some 0 },
          data := { suggestions :=
                      [{ timestamp := 0, suggestion_text := "s",
                         suggested_app := none, followed := true,
                         time_to_respond := 1, current_app := "a" }],
                    stats := ⟨1, 1, 0⟩ } }).data.stats.ignored) ∧
    (record_suggestion_feedback "vscode" 10
        { last_suggestion := { text := some "Open chrome",
                               app_name := some "chrome", timestamp := some 0 },
          data := { suggestions :=
                      [{ timestamp := 0, suggestion_text := "s",
                         suggested_app := none, followed := true,
                         time_to_respond := 1, current_app := "a" }],
                    stats := ⟨1, 1, 0⟩ } }).data.stats.total =
      (record_suggestion_feedback "vscode" 10
        { last_suggestion := { text := some "Open chrome",
                               app_name := some "chrome", timestamp := some 0 },
          data := { suggestions :=
                      [{ timestamp := 0, suggestion_text := "s",
                         suggested_app := none, followed := true,
                         time_to_respond := 1, current_app := "a" }],
                    stats := ⟨1, 1, 0⟩ } }).data.suggestions.length :=
  (c9_stats_invariant.2.1
    { last_suggestion := { text := some "Open chrome",
                           app_name := some "chrome", timestamp := some 0 },
      data := { suggestions :=
                  [{ timestamp := 0, suggestion_text := "s",
                     suggested_app := none, followed := true,
                     time_to_respond := 1, current_app := "a" }],
                stats := ⟨1, 1, 0⟩ } }
    "vscode" 10 (by decide) (by decide))

/-- C10: extract_action_from_suggestion is not total — the input
"ready to switch?" matches the fifth app pattern, whose handling compares the
pattern text against wrongly quoted literals and then calls group(1) on a
groupless pattern, raising IndexError; empty and None inputs do return
{type: None, target: None}. -/
theorem c10_extract_crash :
    extract_action_from_suggestion (some "ready to switch?") =
      Except.error "no such group" ∧
    extract_action_from_suggestion none = Except.ok ⟨none, none⟩ ∧
    extract_action_from_suggestion (some "") = Except.ok ⟨none, none⟩ := by
  decide

end ZeroInput
